import Mathlib

/-!
Verification of processors.py and mstp_rules.py of flare-style-checker-streamlit.

Strings are modelled as lists of characters (`Str`).  Python string
primitives used by the source (`str.find` / `in` / `str.replace(b, a, 1)` /
`str.strip`) are embedded as executable functions below.  Regular-expression
patterns are modelled abstractly as finditer-style functions returning the
list of (start index, matched text) pairs; the concrete case-insensitive
word-boundary literal patterns used by the rules relevant to the claims
(`avoid-click-on`, `use-email`) are implemented directly.
-/

abbrev Str := List Char

def chars (s : String) : Str := s.data

/-- ASCII word character, Python regular-expression word class for the inputs used here. -/
def isWordChar (c : Char) : Bool := c.isAlpha || c.isDigit || c == '_'

def lowerStr (s : Str) : Str := s.map Char.toLower

/-- Python str.strip: remove leading and trailing whitespace. -/
def stripChars (s : Str) : Str :=
  ((s.dropWhile Char.isWhitespace).reverse.dropWhile Char.isWhitespace).reverse

/-- Python t.find(b): index of the leftmost occurrence of b in t, if any. -/
def findSub (t b : Str) : Option Nat :=
  if List.isPrefixOf b t then some 0
  else
    match t with
    | [] => none
    | _ :: rest => Option.map (· + 1) (findSub rest b)

/-- Python t.replace(b, a, 1): replace the first occurrence of b in t by a
(processors.py line 216). -/
def replaceFirst (t b a : Str) : Str :=
  match findSub t b with
  | none => t
  | some i => t.take i ++ a ++ t.drop (i + b.length)

/-!
Patterns (mstp_rules.py).  A pattern is modelled finditer-style: applied to a
text it returns the list of (start index, matched text) spans, in order and
non-overlapping, exactly what `pattern.finditer(original)` iterates over in
`apply_mstp_rules_to_nodes`.
-/

def Pattern := Str → List (Nat × Str)

/-- True when position i of s holds a word character. -/
def isWordAt (s : Str) (i : Nat) : Bool :=
  match s.drop i with
  | [] => false
  | c :: _ => isWordChar c

/-- Case-insensitive comparison of the slice of s starting at i with pat. -/
def matchCIAt (pat s : Str) (i : Nat) : Bool :=
  lowerStr ((s.drop i).take pat.length) == lowerStr pat

/-- Scanner for a case-insensitive literal pattern delimited by word
boundaries on both sides, the shape of the rules relevant to the claims
(`avoid-click-on`, `use-email`).  Mirrors re.finditer: scan left to right,
resume after the end of each match. -/
def goFindCI (pat s : Str) : Nat → Nat → List (Nat × Str)
  | _, 0 => []
  | i, fuel + 1 =>
    if s.length ≤ i then []
    else if matchCIAt pat s i && (i == 0 || !(isWordAt s (i - 1)))
            && !(isWordAt s (i + pat.length)) then
      (i, (s.drop i).take pat.length) :: goFindCI pat s (i + pat.length) fuel
    else goFindCI pat s (i + 1) fuel

def finditerCIWord (pat : Str) : Pattern :=
  fun s => goFindCI pat s 0 (s.length + 1)

/-- re.sub with a literal replacement: splice repl over every matched span.
spliceAll repl ms pos rem assumes rem is the suffix of the subject starting at
index pos and ms lists the remaining matches in ascending order. -/
def spliceAll (repl : Str) : List (Nat × Str) → Nat → Str → Str
  | [], _, rem => rem
  | (i, m) :: rest, pos, rem =>
      rem.take (i - pos) ++ repl ++
        spliceAll repl rest (i + m.length) (rem.drop (i - pos + m.length))

/-- rule pattern.sub(rule repl, s) for a literal replacement string. -/
def patternSub (p : Pattern) (repl : Str) (s : Str) : Str :=
  spliceAll repl (p s) 0 s

/-- One entry of MSTP_RULES: id, desc, pattern, repl (mstp_rules.py).  The
replacement is a literal string; the rules with callable replacements are not
needed by any claim. -/
structure Rule where
  id : String
  desc : String
  pattern : Pattern
  repl : Str

/-- TextNodeRef (processors.py lines 29-37): the text of a node together with
its structural path.  The text is captured as a string, as `str(ref.node)`
does at each use site. -/
structure TextNodeRef where
  text : Str
  path : String
deriving DecidableEq

/-- One suggestion dictionary (processors.py lines 124-132 and 163-171). -/
structure Suggestion where
  type : String
  rule_id : String
  description : String
  path : String
  before : Str
  after : Str
  apply : Bool
deriving DecidableEq

/-- The identity key used by dedupe_suggestions (processors.py line 182). -/
def suggKey (s : Suggestion) : String × String × String × Str × Str :=
  (s.type, s.rule_id, s.path, s.before, s.after)

def dedupeAux : List (String × String × String × Str × Str) → List Suggestion → List Suggestion
  | _, [] => []
  | seen, s :: rest =>
      if suggKey s ∈ seen then dedupeAux seen rest
      else s :: dedupeAux (suggKey s :: seen) rest

/-- dedupe_suggestions (processors.py lines 175-187). -/
def dedupe_suggestions (suggs : List Suggestion) : List Suggestion :=
  dedupeAux [] suggs

/-- suggest_active_voice (processors.py lines 92-99): append a fixed note. -/
def noteStr : Str :=
  chars " (Passive voice detected – consider rewriting in active voice)"

def suggest_active_voice (t : Str) : Str := t ++ noteStr

/-- The per-node, per-rule inner loops of apply_mstp_rules_to_nodes
(processors.py lines 108-132). -/
def mstpNode (rules : List Rule) (ref : TextNodeRef) : List Suggestion :=
  rules.flatMap fun rule =>
    (rule.pattern ref.text).filterMap fun pr =>
      let before := pr.2
      let after :=
        if rule.id = "avoid-passive" then suggest_active_voice before
        else patternSub rule.pattern rule.repl before
      if before = after then none
      else some { type := "MSTP", rule_id := rule.id, description := rule.desc,
                  path := ref.path, before := before, after := after,
                  apply := false }

/-- apply_mstp_rules_to_nodes (processors.py lines 102-134), parameterised by
the rule list (the source fixes it to the module-level MSTP_RULES). -/
def apply_mstp_rules_to_nodes (rules : List Rule) (nodes : List TextNodeRef) :
    List Suggestion :=
  dedupe_suggestions (nodes.flatMap (mstpNode rules))

/-- One LanguageTool match: offset, errorLength, replacements, ruleId,
message, the fields read by apply_langtool_to_nodes. -/
structure LTMatch where
  offset : Nat
  errorLength : Nat
  replacements : List Str
  ruleId : String
  message : String
deriving DecidableEq

/-- The body of the per-node loop of apply_langtool_to_nodes (processors.py
lines 150-171).  The response models `_lt.check(text)`: `.error` is a raised
exception (the `except` branch contributes nothing), `.ok ms` a match list. -/
def ltNode (ref : TextNodeRef) (resp : Except Unit (List LTMatch)) : List Suggestion :=
  match resp with
  | .error _ => []
  | .ok ms => ms.filterMap fun m =>
      match m.replacements with
      | [] => none
      | after :: _ =>
        let before := (ref.text.drop m.offset).take m.errorLength
        if stripChars before = stripChars after ∨ stripChars before = [] then none
        else some { type := "Grammar", rule_id := m.ruleId,
                    description := m.message, path := ref.path,
                    before := before, after := after, apply := false }

/-- apply_langtool_to_nodes (processors.py lines 140-172).  The external tool
is modelled by its per-node responses: none stands for `_lt is None`, and the
k-th entry of the list is the outcome of `_lt.check` on the k-th node. -/
def apply_langtool_to_nodes (lt : Option (List (Except Unit (List LTMatch))))
    (nodes : List TextNodeRef) : List Suggestion :=
  match lt with
  | none => []
  | some responses =>
      dedupe_suggestions ((nodes.zip responses).flatMap fun p => ltNode p.1 p.2)

/-- avoid-click-on (mstp_rules.py lines 5-10). -/
def avoid_click_on : Rule :=
  { id := "avoid-click-on", desc := "Use click instead of click on.",
    pattern := finditerCIWord (chars "click on"), repl := chars "click" }

/-- use-email (mstp_rules.py lines 11-16). -/
def use_email : Rule :=
  { id := "use-email", desc := "Use email instead of e-mail.",
    pattern := finditerCIWord (chars "e-mail"), repl := chars "email" }

/-!
The document tree (the BeautifulSoup object graph).  Elements carry the
attributes `_node_path` reads: tag name, optional id, class list.  NodeList is
a specialised list so that all tree functions are structurally recursive and
evaluate inside the kernel.
-/

mutual
inductive Node where
  | text (s : Str)
  | elem (name : String) (idAttr : Option String) (classes : List String)
      (children : NodeList)
inductive NodeList where
  | nil
  | cons (head : Node) (tail : NodeList)
end

/-- The per-ancestor label built by _node_path (processors.py lines 43-59):
tag name, then #id when present, then dot-joined classes when present. -/
def tagLabel (name : String) (idAttr : Option String) (classes : List String) : String :=
  name ++ (match idAttr with | some i => "#" ++ i | none => "")
       ++ (match classes with | [] => "" | cs => "." ++ String.intercalate "." cs)

/-- _node_path joins the ancestor labels root-to-leaf with " > "
(processors.py line 59: the parts are collected leaf-to-root and reversed). -/
def pathOf (ancestors : List String) : String := String.intercalate " > " ancestors

/-! extract_text_nodes (processors.py lines 62-78): document-order walk over
every string node; skip nodes whose parent tag is script or style, and nodes
whose stripped text is shorter than 2 characters (this single test covers the
`not raw`, `raw.isspace()` and `len(raw.strip()) < 2` branches).  The
accumulator anc holds the labels of the ancestors, root first, so the text
case sees exactly the path _node_path would build. -/
mutual
def extractNode (anc : List String) (parentName : Option String) :
    Node → List TextNodeRef
  | .text s =>
      if parentName = some "script" ∨ parentName = some "style" then []
      else if 2 ≤ (stripChars s).length then [⟨s, pathOf anc⟩]
      else []
  | .elem name idAttr classes children =>
      extractList (anc ++ [tagLabel name idAttr classes]) (some name) children
def extractList (anc : List String) (parentName : Option String) :
    NodeList → List TextNodeRef
  | .nil => []
  | .cons h t => extractNode anc parentName h ++ extractList anc parentName t
end

def extract_text_nodes (soup : Node) : List TextNodeRef :=
  extractNode [] none soup

/-- The source's extraction call site returns the fragment list and leaves the
soup as it was; the pair makes the frame explicit. -/
def extract_run (soup : Node) : List TextNodeRef × Node :=
  (extract_text_nodes soup, soup)

/-- The by_path group for one path (processors.py lines 201-204): the accepted
(before, after) pairs whose path equals p, in their order in the change list.
`p ∈ by_path` of the source corresponds to a non-empty group here. -/
def groupPairs (changes : List Suggestion) (p : String) : List (Str × Str) :=
  (changes.filter fun c => c.path = p).map fun c => (c.before, c.after)

/-- The inner replacement loop (processors.py lines 214-216): fold
str.replace(before, after, 1) over the group in order. -/
def applyPairs : List (Str × Str) → Str → Str
  | [], t => t
  | (b, a) :: rest, t => applyPairs rest (replaceFirst t b a)

/-! The mutation loop of apply_selected_changes (processors.py lines
206-219), as a pure rewrite of the tree: every string node whose path has a
non-empty group gets the folded replacement; the applied counter increments
for each node whose text actually changed. -/
mutual
def applyNode (changes : List Suggestion) (anc : List String) :
    Node → Node × Nat
  | .text s =>
      let g := groupPairs changes (pathOf anc)
      if g = [] then (.text s, 0)
      else
        let s2 := applyPairs g s
        if s2 = s then (.text s, 0) else (.text s2, 1)
  | .elem name idAttr classes children =>
      let r := applyList changes (anc ++ [tagLabel name idAttr classes]) children
      (.elem name idAttr classes r.1, r.2)
def applyList (changes : List Suggestion) (anc : List String) :
    NodeList → NodeList × Nat
  | .nil => (.nil, 0)
  | .cons h t =>
      let rh := applyNode changes anc h
      let rt := applyList changes anc t
      (.cons rh.1 rt.1, rh.2 + rt.2)
end

/-! str(soup): serialisation of the tree.  Attribute formatting details of
the real serialiser are irrelevant to the claims; what matters is that it is
a function of the tree. -/
mutual
def render : Node → String
  | .text s => String.mk s
  | .elem name idAttr classes children =>
      "<" ++ tagLabel name idAttr classes ++ ">" ++ renderList children
        ++ "</" ++ name ++ ">"
def renderList : NodeList → String
  | .nil => ""
  | .cons h t => render h ++ renderList t
end

/-- apply_selected_changes (processors.py lines 193-221): filter the table to
the rows with apply set, rewrite the tree, return the serialised document and
the number of changed nodes. -/
def apply_selected_changes (soup : Node) (df : List Suggestion) : String × Nat :=
  let changes := df.filter fun r => r.apply
  let r := applyNode changes [] soup
  (render r.1, r.2)

/-- process_html (processors.py lines 252-273): extract, run the style rules
and the grammar tool, concatenate, and on a non-empty table set the apply
column to True. -/
def process_html (rules : List Rule) (lt : Option (List (Except Unit (List LTMatch))))
    (soup : Node) : List Suggestion :=
  let nodes := extract_text_nodes soup
  let suggestions := apply_mstp_rules_to_nodes rules nodes
  let grammar_suggestions := apply_langtool_to_nodes lt nodes
  let all := suggestions ++ grammar_suggestions
  if all = [] then all
  else all.map fun r => { r with apply := true }

/-- Soundness of a finditer-style matcher: every reported match text occurs
in the subject, the contract re.finditer satisfies (each yielded match object
has group(0) equal to a span of the subject). -/
def PatternSound (p : Pattern) : Prop :=
  ∀ s pr, pr ∈ p s → pr.2 <:+: s

/-!
Concrete fixtures used by witnesses and counterexamples.  docC1 is the
single-fragment scenario of the spec (fragment "Click on the button to send
an e-mail."); docC2 holds two sibling paragraphs whose structural paths
collide.
-/

def fragC1 : Str := chars "Click on the button to send an e-mail."

def rulesC1 : List Rule := [avoid_click_on, use_email]

def nodeC1 : TextNodeRef := ⟨fragC1, "html > body > p"⟩

def docC1 : Node :=
  .elem "html" none [] (.cons (.elem "body" none []
    (.cons (.elem "p" none [] (.cons (.text fragC1) .nil)) .nil)) .nil)

/-- The two suggestions the generator produces on docC1, with apply set, the
way the review step accepts everything. -/
def acceptedC1 : List Suggestion :=
  (apply_mstp_rules_to_nodes rulesC1 (extract_text_nodes docC1)).map
    fun s => { s with apply := true }

def docC2 : Node :=
  .elem "html" none [] (.cons (.elem "body" none []
    (.cons (.elem "p" none [] (.cons (.text (chars "Click on A.")) .nil))
    (.cons (.elem "p" none [] (.cons (.text (chars "Click on B.")) .nil)) .nil))) .nil)

def acceptedC2 : List Suggestion :=
  (apply_mstp_rules_to_nodes [avoid_click_on] (extract_text_nodes docC2)).map
    fun s => { s with apply := true }

/-- The first suggestion generated on docC1, exactly as the generator emits
it (apply defaults to false). -/
def suggClickOn : Suggestion :=
  { type := "MSTP", rule_id := "avoid-click-on",
    description := "Use click instead of click on.",
    path := "html > body > p", before := chars "Click on",
    after := chars "click", apply := false }

def suggClickOnTrue : Suggestion := { suggClickOn with apply := true }

/-- A rule carrying the avoid-passive id (mstp_rules.py lines 121-126); the
generator dispatches on the id alone, so the fixture uses a literal matcher
in place of the passive-voice regular expression. -/
def passiveFixtureRule : Rule :=
  { id := "avoid-passive", desc := "Prefer active voice instead of passive voice.",
    pattern := finditerCIWord (chars "is tested"), repl := [] }

def nodePassive : TextNodeRef := ⟨chars "It is tested now.", "html > body > p"⟩

def suggPassive : Suggestion :=
  { type := "MSTP", rule_id := "avoid-passive",
    description := "Prefer active voice instead of passive voice.",
    path := "html > body > p", before := chars "is tested",
    after := chars "is tested" ++ noteStr, apply := false }

/-! General lemmas about the embedded operations. -/

theorem findSub_some (t b : Str) :
    ∀ i, findSub t b = some i →
      b <+: t.drop i ∧ ∀ j, j < i → ¬ b <+: t.drop j := by
  induction t with
  | nil =>
    intro i h
    unfold findSub at h
    by_cases hp : List.isPrefixOf b ([] : Str)
    · simp [hp] at h
      subst h
      constructor
      · simpa using ( List.isPrefixOf_iff_prefix.mp hp)
      · intro j hj; omega
    · simp [hp] at h
  | cons c rest ih =>
    intro i h
    unfold findSub at h
    by_cases hp : List.isPrefixOf b (c :: rest)
    · simp [hp] at h
      subst h
      constructor
      · simpa using ( List.isPrefixOf_iff_prefix.mp hp)
      · intro j hj; omega
    · simp [hp] at h
      obtain ⟨i', hi', rfl⟩ := h
      obtain ⟨h1, h2⟩ := ih i' hi'
      constructor
      · simpa using h1
      · intro j hj
        cases j with
        | zero =>
          simpa using fun hb => hp ( List.isPrefixOf_iff_prefix.mpr hb)
        | succ j' =>
          simpa using h2 j' (by omega)

theorem findSub_none (t b : Str) :
    findSub t b = none → ∀ j, ¬ b <+: t.drop j := by
  induction t with
  | nil =>
    intro h j
    unfold findSub at h
    by_cases hp : List.isPrefixOf b ([] : Str)
    · simp [hp] at h
    · simpa using fun hb => hp ( List.isPrefixOf_iff_prefix.mpr hb)
  | cons c rest ih =>
    intro h j
    unfold findSub at h
    by_cases hp : List.isPrefixOf b (c :: rest)
    · simp [hp] at h
    · simp [hp] at h
      cases j with
      | zero =>
        simpa using fun hb => hp ( List.isPrefixOf_iff_prefix.mpr hb)
      | succ j' =>
        simpa using ih h j'

theorem infix_iff_prefix_drop (b t : Str) :
    b <:+: t ↔ ∃ i, b <+: t.drop i := by
  constructor
  · rintro ⟨u, v, rfl⟩
    exact ⟨u.length, by simp⟩
  · rintro ⟨i, v, hv⟩
    exact ⟨t.take i, v, by rw [List.append_assoc, hv, List.take_append_drop]⟩

theorem replaceFirst_of_absent (t b a : Str) (h : ¬ b <:+: t) :
    replaceFirst t b a = t := by
  unfold replaceFirst
  cases hf : findSub t b with
  | none => rfl
  | some i =>
    exact absurd ((infix_iff_prefix_drop b t).mpr ⟨i, (findSub_some t b i hf).1⟩) h

theorem replaceFirst_some (t b a : Str) (i : Nat) (hf : findSub t b = some i) :
    replaceFirst t b a = t.take i ++ a ++ t.drop (i + b.length) := by
  unfold replaceFirst
  rw [hf]

/-- Each single call of replaceFirst either leaves the text unchanged or
rewrites exactly one span. -/
theorem replaceFirst_cases (t b a : Str) :
    replaceFirst t b a = t ∨
      ∃ u v, t = u ++ b ++ v ∧ replaceFirst t b a = u ++ a ++ v := by
  cases hf : findSub t b with
  | none =>
    left
    unfold replaceFirst
    rw [hf]
  | some i =>
    right
    obtain ⟨hpre, _⟩ := findSub_some t b i hf
    obtain ⟨v, hv⟩ := hpre
    have hdrop : t.drop (i + b.length) = v :=
      calc t.drop (i + b.length) = (t.drop i).drop b.length := by
            rw [ List.drop_drop, Nat.add_comm]
        _ = (b ++ v).drop b.length := by rw [hv]
        _ = v := by simp
    refine ⟨t.take i, v, ?_, ?_⟩
    · rw [List.append_assoc, hv, List.take_append_drop]
    · rw [replaceFirst_some t b a i hf, hdrop]


theorem dedupeAux_nil (seen : List (String × String × String × Str × Str)) :
    dedupeAux seen [] = [] := rfl

theorem dedupeAux_cons (seen : List (String × String × String × Str × Str))
    (a : Suggestion) (rest : List Suggestion) :
    dedupeAux seen (a :: rest) =
      if suggKey a ∈ seen then dedupeAux seen rest
      else a :: dedupeAux (suggKey a :: seen) rest := rfl

theorem dedupeAux_subset :
    ∀ (l : List Suggestion) (seen : List (String × String × String × Str × Str))
      (s : Suggestion), s ∈ dedupeAux seen l → s ∈ l := by
  intro l
  induction l with
  | nil => intro seen s h; simp [dedupeAux_nil] at h
  | cons a rest ih =>
    intro seen s h
    rw [dedupeAux_cons] at h
    by_cases hk : suggKey a ∈ seen
    · rw [if_pos hk] at h
      exact List.mem_cons_of_mem a (ih seen s h)
    · rw [if_neg hk] at h
      rcases List.mem_cons.mp h with rfl | h2
      · exact List.mem_cons_self s rest
      · exact List.mem_cons_of_mem a (ih _ s h2)

theorem mem_dedupe (l : List Suggestion) (s : Suggestion)
    (h : s ∈ dedupe_suggestions l) : s ∈ l :=
  dedupeAux_subset l [] s h

theorem dedupeAux_idem :
    ∀ (l : List Suggestion) (seen : List (String × String × String × Str × Str)),
      dedupeAux seen (dedupeAux seen l) = dedupeAux seen l := by
  intro l
  induction l with
  | nil => intro seen; simp [dedupeAux_nil]
  | cons a rest ih =>
    intro seen
    by_cases hk : suggKey a ∈ seen
    · rw [dedupeAux_cons, if_pos hk]
      exact ih seen
    · rw [dedupeAux_cons, if_neg hk, dedupeAux_cons, if_neg hk]
      rw [ih (suggKey a :: seen)]

/-- The slice of s from index i of length n occurs in s. -/
theorem slice_isInfix (s : Str) (i n : Nat) : (s.drop i).take n <:+: s :=
  List.infix_iff_prefix_suffix.mpr ⟨s.drop i, List.take_prefix _ _, List.drop_suffix _ _⟩

theorem goFindCI_sound (pat s : Str) :
    ∀ fuel i pr, pr ∈ goFindCI pat s i fuel → pr.2 <:+: s := by
  intro fuel
  induction fuel with
  | zero => intro i pr h; simp [goFindCI] at h
  | succ fuel ih =>
    intro i pr h
    unfold goFindCI at h
    by_cases hlen : s.length ≤ i
    · rw [if_pos hlen] at h; simp at h
    · rw [if_neg hlen] at h
      by_cases hm : (matchCIAt pat s i && (i == 0 || !(isWordAt s (i - 1)))
          && !(isWordAt s (i + pat.length))) = true
      · rw [if_pos hm] at h
        rcases List.mem_cons.mp h with rfl | h2
        · exact slice_isInfix s i pat.length
        · exact ih _ pr h2
      · rw [if_neg hm] at h
        exact ih _ pr h

theorem finditerCIWord_sound (pat : Str) : PatternSound (finditerCIWord pat) :=
  fun s pr h => goFindCI_sound pat s (s.length + 1) 0 pr h

theorem not_infix_of_findSub_none (t b : Str) (h : findSub t b = none) :
    ¬ b <:+: t := fun hi => by
  obtain ⟨i, hp⟩ := (infix_iff_prefix_drop b t).mp hi
  exact findSub_none t b h i hp

/-- Inversion of membership in the output of apply_mstp_rules_to_nodes:
every suggestion comes from a node, a rule and a match, and carries the
fields the source writes at processors.py lines 124-132. -/
theorem mem_mstp (rules : List Rule) (nodes : List TextNodeRef) (s : Suggestion)
    (h : s ∈ apply_mstp_rules_to_nodes rules nodes) :
    ∃ ref ∈ nodes, ∃ rule ∈ rules, ∃ pr ∈ rule.pattern ref.text,
      s.type = "MSTP" ∧ s.rule_id = rule.id ∧ s.path = ref.path ∧
      s.before = pr.2 ∧
      s.after = (if rule.id = "avoid-passive" then suggest_active_voice pr.2
                 else patternSub rule.pattern rule.repl pr.2) ∧
      s.apply = false ∧ s.before ≠ s.after := by
  unfold apply_mstp_rules_to_nodes at h
  have h1 := mem_dedupe _ _ h
  rw [List.mem_flatMap] at h1
  obtain ⟨ref, href, h2⟩ := h1
  unfold mstpNode at h2
  rw [List.mem_flatMap] at h2
  obtain ⟨rule, hrule, h3⟩ := h2
  rw [List.mem_filterMap] at h3
  obtain ⟨pr, hpr, h4⟩ := h3
  simp only at h4
  by_cases hba : pr.2 = (if rule.id = "avoid-passive" then suggest_active_voice pr.2
      else patternSub rule.pattern rule.repl pr.2)
  · rw [if_pos hba] at h4
    cases h4
  · rw [if_neg hba] at h4
    have hs := Option.some.inj h4
    subst hs
    exact ⟨ref, href, rule, hrule, pr, hpr, rfl, rfl, rfl, rfl, rfl, rfl,
      fun he => hba he⟩

/-- Inversion of membership in the output of apply_langtool_to_nodes: every
grammar suggestion comes from a zipped (node, response) pair and its before
is the slice text[offset : offset + errorLength] (processors.py line 159). -/
theorem mem_langtool (lt : Option (List (Except Unit (List LTMatch))))
    (nodes : List TextNodeRef) (s : Suggestion)
    (h : s ∈ apply_langtool_to_nodes lt nodes) :
    ∃ ref ∈ nodes, ∃ m : LTMatch,
      s.type = "Grammar" ∧ s.path = ref.path ∧
      s.before = (ref.text.drop m.offset).take m.errorLength ∧
      s.apply = false := by
  cases lt with
  | none => simp [apply_langtool_to_nodes] at h
  | some responses =>
    unfold apply_langtool_to_nodes at h
    have h1 := mem_dedupe _ _ h
    rw [List.mem_flatMap] at h1
    obtain ⟨⟨ref, resp⟩, hmem, h2⟩ := h1
    have href : ref ∈ nodes := (List.of_mem_zip hmem).1
    cases resp with
    | error e => simp [ltNode] at h2
    | ok ms =>
      unfold ltNode at h2
      rw [List.mem_filterMap] at h2
      obtain ⟨m, hm, h3⟩ := h2
      cases hrep : m.replacements with
      | nil => rw [hrep] at h3; cases h3
      | cons after rest =>
        rw [hrep] at h3
        simp only at h3
        by_cases hskip : stripChars ((ref.text.drop m.offset).take m.errorLength)
            = stripChars after ∨ stripChars ((ref.text.drop m.offset).take m.errorLength) = []
        · rw [if_pos hskip] at h3
          cases h3
        · rw [if_neg hskip] at h3
          have hs := Option.some.inj h3
          subst hs
          exact ⟨ref, href, m, rfl, rfl, rfl, rfl⟩

/-! With no accepted change, the rewrite pass leaves every node alone. -/

mutual
theorem applyNode_nil : ∀ (anc : List String) (t : Node),
    applyNode [] anc t = (t, 0)
  | anc, .text s => by simp [applyNode, groupPairs]
  | anc, .elem name idAttr classes children => by
      simp [applyNode, applyList_nil (anc ++ [tagLabel name idAttr classes]) children]
theorem applyList_nil : ∀ (anc : List String) (l : NodeList),
    applyList [] anc l = (l, 0)
  | anc, .nil => by simp [applyList]
  | anc, .cons h t => by
      simp [applyList, applyNode_nil anc h, applyList_nil anc t]
end

/-- Replacing the i-th response by a failure, or by a success carrying no
matches, does not change the zipped per-node contributions: a failing node
contributes nothing either way. -/
theorem zip_set_ok_nil :
    ∀ (nodes : List TextNodeRef) (rs : List (Except Unit (List LTMatch))) (i : Nat),
      rs[i]? = some (.error ()) →
      (nodes.zip (rs.set i (.ok []))).flatMap (fun p => ltNode p.1 p.2)
        = (nodes.zip rs).flatMap (fun p => ltNode p.1 p.2) := by
  intro nodes
  induction nodes with
  | nil => intro rs i h; simp
  | cons n ns ih =>
    intro rs i h
    cases rs with
    | nil => simp at h
    | cons r rs' =>
      cases i with
      | zero =>
        have hr : r = .error () := by simpa using h
        subst hr
        simp [ltNode]
      | succ i' =>
        have h' : rs'[i']? = some (.error ()) := by simpa using h
        simp only [List.set, List.zip_cons_cons, List.flatMap_cons]
        rw [ih rs' i' h']

theorem rulesC1_sound : ∀ rule ∈ rulesC1, PatternSound rule.pattern := by
  intro rule hr
  simp only [rulesC1, List.mem_cons, List.not_mem_nil, or_false] at hr
  rcases hr with rfl | rfl
  · exact finditerCIWord_sound (chars "click on")
  · exact finditerCIWord_sound (chars "e-mail")

/-! Claim theorems. -/

/-- C1 (counterexample): on the fragment "Click on the button to send an
e-mail." with the click-on and e-mail rules, the claim's expected output is
wrong: the first suggestion's after is the rule's literal replacement
"click", not the case-matched "Click", and applying both accepted
suggestions therefore yields a document starting with lowercase "click". -/
theorem claim_C1_counterexample :
    ((apply_mstp_rules_to_nodes rulesC1 (extract_text_nodes docC1)).map
        (fun s => (s.before, s.after))
      ≠ [(chars "Click on", chars "Click"), (chars "e-mail", chars "email")]) ∧
    (apply_selected_changes docC1 acceptedC1).1
      ≠ "<html><body><p>Click the button to send an email.</p></body></html>" :=
  ⟨by decide, by decide⟩

/-- C1 (amended): the generator yields exactly the two suggestions
before "Click on" / after "click" (before keeps the matched casing, after is
the rule's literal lowercase replacement) and before "e-mail" / after
"email"; applying both accepted suggestions yields "click the button to send
an email." with one changed fragment. -/
theorem claim_C1_amended :
    (apply_mstp_rules_to_nodes rulesC1 (extract_text_nodes docC1)).map
        (fun s => (s.before, s.after))
      = [(chars "Click on", chars "click"), (chars "e-mail", chars "email")] ∧
    apply_selected_changes docC1 acceptedC1
      = ("<html><body><p>click the button to send an email.</p></body></html>", 1) :=
  ⟨by decide, by decide⟩

/-- C2 (counterexample): on a document with two sibling paragraphs sharing
the structural path, the generator (after dedup across the colliding path)
yields a single accepted suggestion, and the Change Applier rewrites BOTH
fragments with it, reporting 2 changed fragments — the suggestion is applied
to more than one span. -/
theorem claim_C2_counterexample :
    (apply_mstp_rules_to_nodes [avoid_click_on] (extract_text_nodes docC2)).length = 1 ∧
    acceptedC2.length = 1 ∧
    apply_selected_changes docC2 acceptedC2
      = ("<html><body><p>click A.</p><p>click B.</p></body></html>", 2) := by
  refine ⟨by decide, by decide, by decide⟩

/-- C2 (amended): each accepted (before, after) pair rewrites at most one
span of any single fragment (the per-pair action either leaves a text
unchanged or replaces exactly one occurrence, and the per-fragment change
counter increments by at most 1), but the pair is applied independently to
every fragment whose path matches, so fragments with colliding paths can all
be rewritten. -/
theorem claim_C2_amended :
    (∀ t b a : Str, replaceFirst t b a = t ∨
        ∃ u v, t = u ++ b ++ v ∧ replaceFirst t b a = u ++ a ++ v) ∧
    (∀ (changes : List Suggestion) (anc : List String) (s : Str),
        (applyNode changes anc (.text s)).2 ≤ 1) := by
  refine ⟨replaceFirst_cases, ?_⟩
  intro changes anc s
  unfold applyNode
  by_cases hg : groupPairs changes (pathOf anc) = []
  · simp [hg]
  · by_cases hs : applyPairs (groupPairs changes (pathOf anc)) s = s
    · simp [hg, hs]
    · simp [hg, hs]

/-- C3: filtering the table to accepted rows and applying an empty accepted
set leaves the serialised document identical to the serialised input and
reports 0 changes. -/
theorem claim_C3_noop (soup : Node) (df : List Suggestion)
    (h : df.filter (fun r => r.apply) = []) :
    apply_selected_changes soup df = (render soup, 0) := by
  simp [apply_selected_changes, h, applyNode_nil]

theorem claim_C3_noop_witness :
    ([suggClickOn].filter (fun r => r.apply) = []) ∧
    apply_selected_changes docC1 [suggClickOn] = (render docC1, 0) :=
  ⟨by decide, claim_C3_noop docC1 [suggClickOn] (by decide)⟩

/-- C4: in the applier's per-fragment loop, a pair whose before text does not
occur in the current text is skipped without error and contributes nothing
(the fold proceeds as if the pair were absent); when before does occur,
replaceFirst rewrites precisely the leftmost occurrence, as located by
findSub. -/
theorem claim_C4_skip_missing (t b a : Str) (rest : List (Str × Str)) :
    (¬ b <:+: t → applyPairs ((b, a) :: rest) t = applyPairs rest t) ∧
    (∀ i, findSub t b = some i →
      replaceFirst t b a = t.take i ++ a ++ t.drop (i + b.length) ∧
      b <+: t.drop i ∧ ∀ j, j < i → ¬ b <+: t.drop j) := by
  constructor
  · intro h
    show applyPairs rest (replaceFirst t b a) = applyPairs rest t
    rw [replaceFirst_of_absent t b a h]
  · intro i hi
    exact ⟨replaceFirst_some t b a i hi, (findSub_some t b i hi).1,
      (findSub_some t b i hi).2⟩

theorem claim_C4_skip_missing_witness :
    applyPairs [(chars "zz", chars "Q")] (chars "abc") = chars "abc" ∧
    replaceFirst (chars "abab") (chars "ab") (chars "X") = chars "Xab" := by
  constructor
  · exact (claim_C4_skip_missing (chars "abc") (chars "zz") (chars "Q") []).1
      (not_infix_of_findSub_none _ _ (by decide))
  · exact (((claim_C4_skip_missing (chars "abab") (chars "ab") (chars "X") []).2
      0 (by decide)).1).trans (by decide)

/-- C5: dedupe_suggestions is idempotent — deduplicating twice by the
identity key (type, rule_id, path, before, after) equals deduplicating
once. -/
theorem claim_C5_dedupe_idem (l : List Suggestion) :
    dedupe_suggestions (dedupe_suggestions l) = dedupe_suggestions l :=
  dedupeAux_idem l []

/-- C6: every suggestion produced by the style generator (given finditer
matchers that report actual spans of the subject, which re.finditer does)
and every suggestion produced by the grammar generator has a before text
that occurs literally in the originating fragment's content. -/
theorem claim_C6_before_substring (rules : List Rule) (nodes : List TextNodeRef)
    (lt : Option (List (Except Unit (List LTMatch))))
    (hsound : ∀ rule ∈ rules, PatternSound rule.pattern) :
    (∀ s ∈ apply_mstp_rules_to_nodes rules nodes,
       ∃ ref ∈ nodes, s.path = ref.path ∧ s.before <:+: ref.text) ∧
    (∀ s ∈ apply_langtool_to_nodes lt nodes,
       ∃ ref ∈ nodes, s.path = ref.path ∧ s.before <:+: ref.text) := by
  constructor
  · intro s hs
    obtain ⟨ref, href, rule, hrule, pr, hpr, _, _, hpath, hbefore, _, _, _⟩ :=
      mem_mstp rules nodes s hs
    refine ⟨ref, href, hpath, ?_⟩
    rw [hbefore]
    exact hsound rule hrule ref.text pr hpr
  · intro s hs
    obtain ⟨ref, href, m, _, hpath, hbefore, _⟩ := mem_langtool lt nodes s hs
    refine ⟨ref, href, hpath, ?_⟩
    rw [hbefore]
    exact slice_isInfix ref.text m.offset m.errorLength

theorem claim_C6_before_substring_witness :
    ∃ ref ∈ [nodeC1], suggClickOn.path = ref.path ∧ suggClickOn.before <:+: ref.text :=
  (claim_C6_before_substring rulesC1 [nodeC1] none rulesC1_sound).1
    suggClickOn (by decide)

/-- C7: extraction returns the tree it was given untouched (it is a pure
read of the tree, as the source's find_all walk is), and running it again on
that same tree returns an identical fragment sequence. -/
theorem claim_C7_extraction_readonly (soup : Node) :
    (extract_run soup).2 = soup ∧
    (extract_run ((extract_run soup).2)).1 = (extract_run soup).1 :=
  ⟨rfl, rfl⟩

/-- C8: a grammar-tool failure on the i-th fragment is equivalent to that
fragment returning no matches: the overall suggestion list is unchanged when
the failing response is replaced by an empty success, and a failing fragment
contributes no suggestions at all. -/
theorem claim_C8_failure_isolated (nodes : List TextNodeRef)
    (rs : List (Except Unit (List LTMatch))) (i : Nat)
    (h : rs[i]? = some (.error ())) :
    apply_langtool_to_nodes (some rs) nodes
      = apply_langtool_to_nodes (some (rs.set i (.ok []))) nodes ∧
    (∀ ref : TextNodeRef, ltNode ref (.error ()) = []) := by
  constructor
  · show dedupe_suggestions ((nodes.zip rs).flatMap fun p => ltNode p.1 p.2)
      = dedupe_suggestions ((nodes.zip (rs.set i (.ok []))).flatMap fun p => ltNode p.1 p.2)
    rw [zip_set_ok_nil nodes rs i h]
  · intro ref
    rfl

theorem claim_C8_failure_isolated_witness :
    apply_langtool_to_nodes (some [Except.error ()]) [nodeC1]
      = apply_langtool_to_nodes (some ([Except.error ()].set 0 (.ok []))) [nodeC1] :=
  (claim_C8_failure_isolated [nodeC1] [Except.error ()] 0 (by rfl)).1

/-- C9: every row of a non-empty process_html table has apply = true (the
entry point overwrites the column), although both generators create each
suggestion with apply = false. -/
theorem claim_C9_accept_all (rules : List Rule)
    (lt : Option (List (Except Unit (List LTMatch)))) (soup : Node) :
    (∀ r ∈ process_html rules lt soup, r.apply = true) ∧
    (∀ s ∈ apply_mstp_rules_to_nodes rules (extract_text_nodes soup),
        s.apply = false) ∧
    (∀ s ∈ apply_langtool_to_nodes lt (extract_text_nodes soup),
        s.apply = false) := by
  refine ⟨?_, ?_, ?_⟩
  · intro r hr
    simp only [process_html] at hr
    split at hr
    next hall =>
      rw [hall] at hr
      simp at hr
    next hall =>
      rw [List.mem_map] at hr
      obtain ⟨r', _, rfl⟩ := hr
      rfl
  · intro s hs
    obtain ⟨_, _, _, _, _, _, _, _, _, _, _, happly, _⟩ := mem_mstp _ _ s hs
    exact happly
  · intro s hs
    obtain ⟨_, _, _, _, _, _, happly⟩ := mem_langtool _ _ s hs
    exact happly

theorem claim_C9_accept_all_witness :
    suggClickOnTrue.apply = true ∧ suggClickOn.apply = false :=
  ⟨(claim_C9_accept_all rulesC1 none docC1).1 suggClickOnTrue (by decide),
   (claim_C9_accept_all rulesC1 none docC1).2.1 suggClickOn (by decide)⟩

/-- C10: every suggestion carrying the avoid-passive rule id has after equal
to before with the fixed passive-voice note appended, so before is a proper
prefix of after and accepting the suggestion inserts the note instead of
rewriting the sentence. -/
theorem claim_C10_passive_note (rules : List Rule) (nodes : List TextNodeRef)
    (s : Suggestion) (hs : s ∈ apply_mstp_rules_to_nodes rules nodes)
    (hid : s.rule_id = "avoid-passive") :
    s.after = s.before ++ noteStr ∧ s.before <+: s.after ∧ s.before ≠ s.after := by
  obtain ⟨ref, href, rule, hrule, pr, hpr, _, hruleid, _, hbefore, hafter, _, hne⟩ :=
    mem_mstp rules nodes s hs
  have hrid : rule.id = "avoid-passive" := by rw [← hruleid, hid]
  rw [hrid, if_pos rfl] at hafter
  have h1 : s.after = s.before ++ noteStr := by
    rw [hafter, hbefore]
    rfl
  exact ⟨h1, ⟨noteStr, h1.symm⟩, hne⟩

theorem claim_C10_passive_note_witness :
    suggPassive.after = suggPassive.before ++ noteStr ∧
    suggPassive.before <+: suggPassive.after ∧
    suggPassive.before ≠ suggPassive.after :=
  claim_C10_passive_note [passiveFixtureRule] [nodePassive] suggPassive
    (by decide) (by decide)
